import Mathlib

/-!
Verification of the chaim-bprint-spec validation engine.

The definitions below are a shallow embedding of the semantic validator in
`src/validation` (the extended variant accepting collection types) and of the
reporting helper `scripts/utils/validation-helpers.mjs`.  JavaScript values are
modelled by `JSValue`; JavaScript numbers are modelled by `ℚ` (no claim depends
on floating-point behaviour).  Thrown `Error`s are modelled by `Except String`,
carrying the thrown message.  Property access `o.k` is modelled by `getProp`,
which returns `undef` for a missing key; the validator is only ever applied to
object-shaped documents, where this matches JavaScript (the separate helper
`propAccess` models the `TypeError` thrown by access on `null`/`undefined`,
which the counting helper can actually hit).
-/

/-- A JavaScript runtime value: `undefined`, `null`, booleans, numbers
(modelled by `ℚ`), strings, arrays and plain objects (key/value lists; the
documents under validation use each key at most once, so first-match lookup
agrees with JavaScript object semantics). -/
inductive JSValue where
  | undef : JSValue
  | null : JSValue
  | bool (b : Bool) : JSValue
  | num (q : ℚ) : JSValue
  | str (s : String) : JSValue
  | arr (xs : List JSValue) : JSValue
  | obj (kvs : List (String × JSValue)) : JSValue


/-- Key lookup in an object's key/value list; `undef` when the key is absent. -/
def lookupProp : List (String × JSValue) → String → JSValue
  | [], _ => JSValue.undef
  | (k, v) :: rest, key => if k = key then v else lookupProp rest key

/-- Property access `v.key` on a non-nullish base: object lookup, `undefined`
for every other base (matching JavaScript for the accesses the validator
performs; access on `null`/`undefined` never happens on documents the
validator accepts or the claims mention). -/
def getProp (v : JSValue) (key : String) : JSValue :=
  match v with
  | JSValue.obj kvs => lookupProp kvs key
  | _ => JSValue.undef

/-- JavaScript truthiness: `undefined`, `null`, `false`, `0` and `""` are
falsy; every other value, including empty arrays and objects, is truthy. -/
def truthy : JSValue → Bool
  | JSValue.undef => false
  | JSValue.null => false
  | JSValue.bool b => b
  | JSValue.num q => !(q == 0)
  | JSValue.str s => !(s == "")
  | JSValue.arr _ => true
  | JSValue.obj _ => true

/-- `v === undefined`. -/
def isUndef : JSValue → Bool
  | JSValue.undef => true
  | _ => false

/-- `v === undefined || v === null` (the values `??` coalesces over). -/
def isNullish : JSValue → Bool
  | JSValue.undef => true
  | JSValue.null => true
  | _ => false

/-- The nullish-coalescing operator `v ?? d`. -/
def nullishOr (v d : JSValue) : JSValue :=
  if isNullish v then d else v

/-- First character class of `VALID_IDENTIFIER_REGEX`: `[a-zA-Z_]`. -/
def isIdentStart (c : Char) : Bool :=
  c.isAlpha || c == '_'

/-- Later character class of `VALID_IDENTIFIER_REGEX`: `[a-zA-Z0-9_]`. -/
def isIdentChar (c : Char) : Bool :=
  c.isAlpha || c.isDigit || c == '_'

/-- `VALID_IDENTIFIER_REGEX.test s` for `/^[a-zA-Z_][a-zA-Z0-9_]*$/`. -/
def isValidIdentifier (s : String) : Bool :=
  match s.data with
  | [] => false
  | c :: cs => isIdentStart c && cs.all isIdentChar

/-- `RESERVED_WORDS`: reserved keywords across the supported target languages
(Java keywords, Java literals, Python keywords, Go keywords), exactly the set
literal in the source. -/
def RESERVED_WORDS : List String :=
  ["abstract", "assert", "boolean", "break", "byte", "case", "catch", "char",
   "class", "const", "continue", "default", "do", "double", "else", "enum",
   "extends", "final", "finally", "float", "for", "goto", "if", "implements",
   "import", "instanceof", "int", "interface", "long", "native", "new",
   "package", "private", "protected", "public", "return", "short", "static",
   "strictfp", "super", "switch", "synchronized", "this", "throw", "throws",
   "transient", "try", "void", "volatile", "while",
   "true", "false", "null",
   "and", "as", "def", "del", "elif", "except", "from", "global", "in", "is",
   "lambda", "nonlocal", "not", "or", "pass", "raise", "with", "yield",
   "chan", "defer", "fallthrough", "func", "go", "map", "range", "select",
   "struct", "type", "var"]

/-- `SCALAR_TYPES` from the source. -/
def SCALAR_TYPES : List String := ["string", "number", "boolean", "timestamp"]

/-- `COLLECTION_TYPES` from the source. -/
def COLLECTION_TYPES : List String := ["list", "map", "stringSet", "numberSet"]

/-- `ALL_FIELD_TYPES = [...SCALAR_TYPES, ...COLLECTION_TYPES]`. -/
def ALL_FIELD_TYPES : List String := SCALAR_TYPES ++ COLLECTION_TYPES

/-- `LIST_ITEM_TYPES = [...SCALAR_TYPES, 'map']`. -/
def LIST_ITEM_TYPES : List String := SCALAR_TYPES ++ ["map"]

/-- A validated `NestedField`: name and scalar type only. -/
structure NestedField where
  name : String
  type : String


/-- A validated `ListItems` descriptor for a `list` field. -/
structure ListItems where
  type : String
  fields : Option (List NestedField)


/-- One entry of the normalized `fields` array produced by `validateFields`:
the raw attribute values are carried through unchanged (an absent attribute is
`undef`), `required` is the raw value with `?? false` applied. -/
structure ValidatedField where
  name : String
  nameOverride : JSValue
  type : String
  required : JSValue
  default : JSValue
  enum : JSValue
  description : JSValue
  constraints : JSValue
  annotations : JSValue
  items : Option ListItems
  fields : Option (List NestedField)


/-- The validated `PrimaryKey` value. -/
structure PrimaryKeyData where
  partitionKey : String
  sortKey : JSValue


/-- The normalized `SchemaData` returned by `validateSchema` (top-level values
passed through raw). -/
structure SchemaData where
  schemaVersion : JSValue
  entityName : JSValue
  description : JSValue
  primaryKey : PrimaryKeyData
  fields : List ValidatedField

/-- Message of the top-level type check for a field (uses the joined
`ALL_FIELD_TYPES` list, as the source interpolates). -/
def fieldTypeMsg (name : String) : String :=
  "Field '" ++ name ++ "' must have a valid type: " ++
    String.intercalate ", " ALL_FIELD_TYPES

/-- The `nameOverride` checks of `validateFields` (source lines 113-129):
skipped when the value is `undefined` or `null`; otherwise it must be a
string, match the identifier regex and avoid `RESERVED_WORDS`. -/
def checkNameOverride (name : String) (v : JSValue) : Except String Unit :=
  match v with
  | JSValue.undef => Except.ok ()
  | JSValue.null => Except.ok ()
  | JSValue.str s =>
      if !isValidIdentifier s then
        Except.error ("Field '" ++ name ++ "' nameOverride '" ++ s ++
          "' is not a valid identifier. Must match /^[a-zA-Z_][a-zA-Z0-9_]*$/")
      else if RESERVED_WORDS.contains s then
        Except.error ("Field '" ++ name ++ "' nameOverride '" ++ s ++
          "' is a reserved keyword")
      else Except.ok ()
  | _ => Except.error ("Field '" ++ name ++ "' nameOverride must be a string")

/-- `validateDefaultValue` from the source: the default's runtime type must
match the declared field type (`timestamp` accepts any string). -/
def validateDefaultValue (defaultValue : JSValue) (fieldType : String) : Bool :=
  match fieldType with
  | "string" => match defaultValue with | JSValue.str _ => true | _ => false
  | "number" => match defaultValue with | JSValue.num _ => true | _ => false
  | "boolean" => match defaultValue with | JSValue.bool _ => true | _ => false
  | "timestamp" => match defaultValue with | JSValue.str _ => true | _ => false
  | _ => false

/-- The `minLength` legality check of `validateFieldConstraints`: present
only on string fields, and a non-negative integer. -/
def checkMinLength (fieldName fieldType : String) (constraints : JSValue) :
    Except String Unit :=
  if !isUndef (getProp constraints "minLength") then
    if fieldType ≠ "string" then
      Except.error ("Field '" ++ fieldName ++
        "' has minLength constraint but is not a string type")
    else
      match getProp constraints "minLength" with
      | JSValue.num q =>
          if q < 0 ∨ q.den ≠ 1 then
            Except.error ("Field '" ++ fieldName ++
              "' minLength must be a non-negative integer")
          else Except.ok ()
      | _ => Except.error ("Field '" ++ fieldName ++
          "' minLength must be a non-negative integer")
  else Except.ok ()

/-- The `maxLength` legality check, identical in shape to `checkMinLength`. -/
def checkMaxLength (fieldName fieldType : String) (constraints : JSValue) :
    Except String Unit :=
  if !isUndef (getProp constraints "maxLength") then
    if fieldType ≠ "string" then
      Except.error ("Field '" ++ fieldName ++
        "' has maxLength constraint but is not a string type")
    else
      match getProp constraints "maxLength" with
      | JSValue.num q =>
          if q < 0 ∨ q.den ≠ 1 then
            Except.error ("Field '" ++ fieldName ++
              "' maxLength must be a non-negative integer")
          else Except.ok ()
      | _ => Except.error ("Field '" ++ fieldName ++
          "' maxLength must be a non-negative integer")
  else Except.ok ()

/-- The `minLength ≤ maxLength` ordering check.  The source compares the two
raw values whenever both are present; at that point the earlier checks have
already thrown on any non-numeric presence, so matching on numbers (with the
other cases passing) is faithful. -/
def checkLenOrder (fieldName : String) (constraints : JSValue) :
    Except String Unit :=
  match getProp constraints "minLength", getProp constraints "maxLength" with
  | JSValue.num a, JSValue.num b =>
      if a > b then
        Except.error ("Field '" ++ fieldName ++ "' minLength (" ++ toString a ++
          ") cannot be greater than maxLength (" ++ toString b ++ ")")
      else Except.ok ()
  | _, _ => Except.ok ()

/-- The `pattern` legality check: string fields only, string-valued, and the
pattern must compile (`rx` stands for the host RegExp compiler). -/
def checkPattern (rx : String → Bool) (fieldName fieldType : String)
    (constraints : JSValue) : Except String Unit :=
  if !isUndef (getProp constraints "pattern") then
    if fieldType ≠ "string" then
      Except.error ("Field '" ++ fieldName ++
        "' has pattern constraint but is not a string type")
    else
      match getProp constraints "pattern" with
      | JSValue.str s =>
          if rx s then Except.ok ()
          else Except.error ("Field '" ++ fieldName ++
            "' pattern is not a valid regular expression")
      | _ => Except.error ("Field '" ++ fieldName ++ "' pattern must be a string")
  else Except.ok ()

/-- The `min` legality check: number fields only, number-valued. -/
def checkMin (fieldName fieldType : String) (constraints : JSValue) :
    Except String Unit :=
  if !isUndef (getProp constraints "min") then
    if fieldType ≠ "number" then
      Except.error ("Field '" ++ fieldName ++
        "' has min constraint but is not a number type")
    else
      match getProp constraints "min" with
      | JSValue.num _ => Except.ok ()
      | _ => Except.error ("Field '" ++ fieldName ++ "' min must be a number")
  else Except.ok ()

/-- The `max` legality check: number fields only, number-valued. -/
def checkMax (fieldName fieldType : String) (constraints : JSValue) :
    Except String Unit :=
  if !isUndef (getProp constraints "max") then
    if fieldType ≠ "number" then
      Except.error ("Field '" ++ fieldName ++
        "' has max constraint but is not a number type")
    else
      match getProp constraints "max" with
      | JSValue.num _ => Except.ok ()
      | _ => Except.error ("Field '" ++ fieldName ++ "' max must be a number")
  else Except.ok ()

/-- The `min ≤ max` ordering check, same comparison discipline as
`checkLenOrder`. -/
def checkNumOrder (fieldName : String) (constraints : JSValue) :
    Except String Unit :=
  match getProp constraints "min", getProp constraints "max" with
  | JSValue.num a, JSValue.num b =>
      if a > b then
        Except.error ("Field '" ++ fieldName ++ "' min (" ++ toString a ++
          ") cannot be greater than max (" ++ toString b ++ ")")
      else Except.ok ()
  | _, _ => Except.ok ()

/-- `validateFieldConstraints` from the source, parametric in `rx`, the host
platform's test for `new RegExp(pattern)` compiling (the RegExp engine is not
part of this repository; no claim depends on which patterns compile).  Checks
run in source order: `minLength`, `maxLength`, their ordering, `pattern`,
`min`, `max`, their ordering. -/
def validateFieldConstraints (rx : String → Bool) (fieldName fieldType : String)
    (constraints : JSValue) : Except String Unit := do
  checkMinLength fieldName fieldType constraints
  checkMaxLength fieldName fieldType constraints
  checkLenOrder fieldName constraints
  checkPattern rx fieldName fieldType constraints
  checkMin fieldName fieldType constraints
  checkMax fieldName fieldType constraints
  checkNumOrder fieldName constraints

/-- The nested-field name check: `name` must be a truthy string. -/
def checkNestedName (parentFieldName : String) (nf : JSValue) :
    Except String String :=
  match getProp nf "name" with
  | JSValue.str s =>
      if s = "" then
        Except.error ("Nested field in '" ++ parentFieldName ++
          "' must include name as a string")
      else Except.ok s
  | _ => Except.error ("Nested field in '" ++ parentFieldName ++
      "' must include name as a string")

/-- The nested-field type check: `type` must be truthy and a scalar type. -/
def checkNestedType (parentFieldName name : String) (nf : JSValue) :
    Except String String :=
  match getProp nf "type" with
  | JSValue.str t =>
      if SCALAR_TYPES.contains t then Except.ok t
      else Except.error ("Nested field '" ++ name ++ "' in '" ++
        parentFieldName ++ "' must have a valid type: " ++
        String.intercalate ", " SCALAR_TYPES)
  | _ => Except.error ("Nested field '" ++ name ++ "' in '" ++ parentFieldName ++
      "' must have a valid type: " ++ String.intercalate ", " SCALAR_TYPES)

/-- The nested-field duplicate check within one nested list. -/
def checkNestedDup (parentFieldName : String) (seen : List String)
    (name : String) : Except String Unit :=
  if seen.contains name then
    Except.error ("Duplicate nested field name '" ++ name ++ "' in '" ++
      parentFieldName ++ "'")
  else Except.ok ()

/-- Loop body of `validateNestedFields`: name present as a non-empty string,
type in `SCALAR_TYPES`, no duplicate against the names already seen. -/
def validateNestedFieldsAux (parentFieldName : String) (seen : List String) :
    List JSValue → Except String (List NestedField)
  | [] => Except.ok []
  | nf :: rest => do
      let name ← checkNestedName parentFieldName nf
      let ty ← checkNestedType parentFieldName name nf
      checkNestedDup parentFieldName seen name
      let tail ← validateNestedFieldsAux parentFieldName (name :: seen) rest
      pure (NestedField.mk name ty :: tail)

/-- `validateNestedFields` from the source: nested map fields support name and
scalar type only, with internal duplicate detection. -/
def validateNestedFields (parentFieldName : String) (fields : List JSValue) :
    Except String (List NestedField) :=
  validateNestedFieldsAux parentFieldName [] fields

/-- The `items.type` check of `validateListItems`: truthy and a member of
`LIST_ITEM_TYPES` (the scalar types plus `map`; a nested `list` is not a
member and is rejected). -/
def checkItemsType (fieldName : String) (items : JSValue) :
    Except String String :=
  match getProp items "type" with
  | JSValue.str t =>
      if LIST_ITEM_TYPES.contains t then Except.ok t
      else Except.error ("Field '" ++ fieldName ++
        "' items must have a valid type: " ++
        String.intercalate ", " LIST_ITEM_TYPES)
  | _ => Except.error ("Field '" ++ fieldName ++ "' items must have a valid type: " ++
      String.intercalate ", " LIST_ITEM_TYPES)

/-- The nested-fields requirement for `items.type = 'map'`: a non-empty
`fields` array validated as nested fields. -/
def checkItemsMapFields (fieldName ty : String) (items : JSValue) :
    Except String (Option (List NestedField)) :=
  if ty = "map" then
    match getProp items "fields" with
    | JSValue.arr (f :: fs) => (validateNestedFields fieldName (f :: fs)).map some
    | _ => Except.error ("Field '" ++ fieldName ++
        "' items of type 'map' must include a non-empty 'fields' array")
  else Except.ok none

/-- `validateListItems` from the source: `items.type` must be in
`LIST_ITEM_TYPES`; a `map` element type requires a non-empty nested `fields`
array validated as nested fields. -/
def validateListItems (fieldName : String) (items : JSValue) :
    Except String ListItems := do
  let ty ← checkItemsType fieldName items
  let nested ← checkItemsMapFields fieldName ty items
  pure (ListItems.mk ty nested)

/-- The name check opening the `validateFields` loop body: `name` must be a
truthy string. -/
def checkFieldName (field : JSValue) : Except String String :=
  match getProp field "name" with
  | JSValue.str s =>
      if s = "" then Except.error "Field must include name as a string"
      else Except.ok s
  | _ => Except.error "Field must include name as a string"

/-- The type check of the loop body: `type` must be truthy and a member of
`ALL_FIELD_TYPES`. -/
def checkFieldType (name : String) (field : JSValue) : Except String String :=
  match getProp field "type" with
  | JSValue.str t =>
      if ALL_FIELD_TYPES.contains t then Except.ok t
      else Except.error (fieldTypeMsg name)
  | _ => Except.error (fieldTypeMsg name)

/-- The duplicate-name check against the names already seen. -/
def checkDupName (seen : List String) (name : String) : Except String Unit :=
  if seen.contains name then Except.error ("Duplicate field name: " ++ name)
  else Except.ok ()

/-- The collection-type exclusions (source lines 131-150): a field of a
collection type may carry no `default`, no truthy `enum` and no truthy
`constraints`. -/
def checkCollectionAttrs (name ty : String) (field : JSValue) :
    Except String Unit :=
  if COLLECTION_TYPES.contains ty then
    if !isUndef (getProp field "default") then
      Except.error ("Field '" ++ name ++ "' of type '" ++ ty ++
        "' cannot have a default value")
    else if truthy (getProp field "enum") then
      Except.error ("Field '" ++ name ++ "' of type '" ++ ty ++
        "' cannot have enum values")
    else if truthy (getProp field "constraints") then
      Except.error ("Field '" ++ name ++ "' of type '" ++ ty ++
        "' cannot have constraints")
    else Except.ok ()
  else Except.ok ()

/-- The `enum` shape check: a truthy `enum` must be a non-empty array. -/
def checkEnumShape (name : String) (field : JSValue) : Except String Unit :=
  if truthy (getProp field "enum") then
    match getProp field "enum" with
    | JSValue.arr (_ :: _) => Except.ok ()
    | _ => Except.error ("Field '" ++ name ++ "' enum must be a non-empty array")
  else Except.ok ()

/-- The `default` type check: a present default must match the field type
per `validateDefaultValue`. -/
def checkDefault (name ty : String) (field : JSValue) : Except String Unit :=
  if !isUndef (getProp field "default") then
    if !validateDefaultValue (getProp field "default") ty then
      Except.error ("Field '" ++ name ++
        "' default value type does not match field type")
    else Except.ok ()
  else Except.ok ()

/-- The constraint step: a truthy `constraints` value is checked by
`validateFieldConstraints`. -/
def checkConstraintsStep (rx : String → Bool) (name ty : String)
    (field : JSValue) : Except String Unit :=
  if truthy (getProp field "constraints") then
    validateFieldConstraints rx name ty (getProp field "constraints")
  else Except.ok ()

/-- The `list` step (source lines 172-181): a `list` field needs a truthy
object-typed `items` value, validated by `validateListItems`. -/
def checkItemsStep (name ty : String) (field : JSValue) :
    Except String (Option ListItems) :=
  if ty = "list" then
    match getProp field "items" with
    | JSValue.obj kvs => (validateListItems name (JSValue.obj kvs)).map some
    | JSValue.arr xs => (validateListItems name (JSValue.arr xs)).map some
    | _ => Except.error ("Field '" ++ name ++
        "' of type 'list' must include an 'items' definition")
  else Except.ok none

/-- The `map` step (source lines 183-192): a `map` field needs a non-empty
`fields` array, validated by `validateNestedFields`. -/
def checkMapStep (name ty : String) (field : JSValue) :
    Except String (Option (List NestedField)) :=
  if ty = "map" then
    match getProp field "fields" with
    | JSValue.arr (f :: fs) => (validateNestedFields name (f :: fs)).map some
    | _ => Except.error ("Field '" ++ name ++
        "' of type 'map' must include a non-empty 'fields' array")
  else Except.ok none

/-- The normalized entry pushed at the end of the loop body (source lines
194-206): raw attribute values carried through, `required ?? false`. -/
def mkValidatedField (name ty : String) (field : JSValue)
    (items : Option ListItems) (nested : Option (List NestedField)) :
    ValidatedField :=
  ValidatedField.mk name (getProp field "nameOverride") ty
    (nullishOr (getProp field "required") (JSValue.bool false))
    (getProp field "default") (getProp field "enum")
    (getProp field "description") (getProp field "constraints")
    (getProp field "annotations") items nested

/-- One iteration of the `validateFields` loop (source lines 93-207), against
the set of previously seen field names.  Check order follows the source:
name, type, duplicate name, `nameOverride`, collection-type exclusions,
`enum` shape, `default` type, `constraints`, `list` items, `map` fields. -/
def validateOneField (rx : String → Bool) (seen : List String)
    (field : JSValue) : Except String ValidatedField := do
  let name ← checkFieldName field
  let ty ← checkFieldType name field
  checkDupName seen name
  checkNameOverride name (getProp field "nameOverride")
  checkCollectionAttrs name ty field
  checkEnumShape name field
  checkDefault name ty field
  checkConstraintsStep rx name ty field
  let validatedItems ← checkItemsStep name ty field
  let validatedNestedFields ← checkMapStep name ty field
  pure (mkValidatedField name ty field validatedItems validatedNestedFields)

/-- The `validateFields` loop with its accumulated name set. -/
def validateFieldsAux (rx : String → Bool) (seen : List String) :
    List JSValue → Except String (List ValidatedField)
  | [] => Except.ok []
  | f :: fs => do
      let vf ← validateOneField rx seen f
      let rest ← validateFieldsAux rx (vf.name :: seen) fs
      pure (vf :: rest)

/-- `validateFields` from the source. -/
def validateFields (rx : String → Bool) (fields : List JSValue) :
    Except String (List ValidatedField) :=
  validateFieldsAux rx [] fields

/-- `validatePrimaryKey` from the source: `partitionKey` must be a truthy
string; `sortKey` is passed through raw. -/
def validatePrimaryKey (primaryKey : JSValue) : Except String PrimaryKeyData :=
  match getProp primaryKey "partitionKey" with
  | JSValue.str s =>
      if s = "" then
        Except.error "PrimaryKey must include partitionKey as a string"
      else Except.ok (PrimaryKeyData.mk s (getProp primaryKey "sortKey"))
  | _ => Except.error "PrimaryKey must include partitionKey as a string"

/-- `validateSchema` from the source (the extended variant): truthiness
checks on the required top-level values, `fields` a non-empty array, then
primary-key and field validation; the normalized value passes the top-level
attributes through raw. -/
def validateSchema (rx : String → Bool) (schema : JSValue) :
    Except String SchemaData := do
  if !truthy (getProp schema "schemaVersion") then
    throw "Schema must include schemaVersion field"
  if !truthy (getProp schema "entityName") then
    throw "Schema must include entityName field"
  if !truthy (getProp schema "description") then
    throw "Schema must include description field"
  if !truthy (getProp schema "primaryKey") then
    throw "Schema must include primaryKey field"
  match getProp schema "fields" with
  | JSValue.arr (f :: fs) => do
      let primaryKey ← validatePrimaryKey (getProp schema "primaryKey")
      let fields ← validateFields rx (f :: fs)
      pure (SchemaData.mk (getProp schema "schemaVersion")
        (getProp schema "entityName") (getProp schema "description")
        primaryKey fields)
  | _ => throw "Schema must include fields array with at least one field"
/-- Property access that models the JavaScript `TypeError` on a nullish base
(`null.x` / `undefined.x` throw); on any other base it behaves as `getProp`.
Used by the counting helper, which unlike the validator can actually reach a
nullish base. -/
def propAccess (v : JSValue) (key : String) : Except String JSValue :=
  match v with
  | JSValue.undef => Except.error "TypeError"
  | JSValue.null => Except.error "TypeError"
  | JSValue.obj kvs => Except.ok (lookupProp kvs key)
  | _ => Except.ok JSValue.undef

/-- `x.length` on a non-nullish value: array or string length, otherwise
`undefined`. -/
def jsLength : JSValue → JSValue
  | JSValue.arr xs => JSValue.num (xs.length : ℚ)
  | JSValue.str s => JSValue.num (s.length : ℚ)
  | _ => JSValue.undef

/-- The result object of `countEntitiesAndFields`. -/
structure CountResult where
  entityCount : ℚ
  fieldCount : ℚ
deriving DecidableEq

/-- The reducer body `(sum, e) => sum + (e.fields?.length || 0)` of the
counting helper; accessing `e.fields` on a nullish element is a `TypeError`. -/
def fieldCountStep (sum : ℚ) (e : JSValue) : Except String ℚ := do
  let fs ← propAccess e "fields"
  let len : ℚ :=
    if isNullish fs then 0
    else
      match jsLength fs with
      | JSValue.num q => q
      | _ => 0
  pure (sum + len)

/-- `countEntitiesAndFields` from `scripts/utils/validation-helpers.mjs`:
`entityCount = json.entities?.length || 0` and
`fieldCount = json.entities?.reduce(fieldCountStep, 0) || 0`.  The optional
chain short-circuits only on a nullish `entities`; a truthy non-array
`entities` makes the `reduce` call a `TypeError`, exactly as in JavaScript.
The trailing `|| 0` coalesces a falsy count to `0`, which on the numeric
results here is the identity, as reflected by the branches. -/
def countEntitiesAndFields (json : JSValue) : Except String CountResult := do
  let ents ← propAccess json "entities"
  let entityCount : ℚ :=
    if isNullish ents then 0
    else
      match jsLength ents with
      | JSValue.num q => q
      | _ => 0
  let fieldCount ←
    if isNullish ents then pure (0 : ℚ)
    else
      match ents with
      | JSValue.arr xs => List.foldlM fieldCountStep (0 : ℚ) xs
      | _ => throw "TypeError"
  pure (CountResult.mk entityCount fieldCount)

/-- `sub` occurs in `m` as a contiguous substring (the sense in which an error
message "names" a field or a rule). -/
def strContains (m sub : String) : Prop :=
  sub.data <:+: m.data

instance (m sub : String) : Decidable (strContains m sub) := by
  unfold strContains; infer_instance
/-- A trivial stand-in for the host regex compiler: every pattern compiles.
Used to instantiate `rx` at concrete documents that carry no `pattern`. -/
def rxTrue : String → Bool := fun _ => true

/-- Valid top-level attributes shared by the concrete test documents. -/
def schemaHeader : List (String × JSValue) :=
  [("schemaVersion", JSValue.str "1"), ("entityName", JSValue.str "E"),
   ("description", JSValue.str "d"),
   ("primaryKey", JSValue.obj [("partitionKey", JSValue.str "pk")])]

/-- A schema document with the valid header and the given `fields` array. -/
def mkSchemaDoc (fields : List JSValue) : JSValue :=
  JSValue.obj (schemaHeader ++ [("fields", JSValue.arr fields)])

/-- A field object with the given name, type and extra attributes. -/
def attrField (n ty : String) (extras : List (String × JSValue)) : JSValue :=
  JSValue.obj ([("name", JSValue.str n), ("type", JSValue.str ty)] ++ extras)

/-- The per-field pass-through relation between a raw field object and its
normalized output: `required` is the raw value with `?? false` applied, and
every other optional attribute is stored exactly as read from the document
(`undef` when absent). -/
def fieldNormRel (f : JSValue) (vf : ValidatedField) : Prop :=
  vf.required = nullishOr (getProp f "required") (JSValue.bool false) ∧
  vf.nameOverride = getProp f "nameOverride" ∧
  vf.default = getProp f "default" ∧
  vf.enum = getProp f "enum" ∧
  vf.description = getProp f "description" ∧
  vf.constraints = getProp f "constraints" ∧
  vf.annotations = getProp f "annotations" ∧
  getProp f "name" = JSValue.str vf.name ∧
  getProp f "type" = JSValue.str vf.type

/-- C1's counterexample document: one field whose `required` key is present
and holds `null`. -/
def c1Doc : JSValue :=
  mkSchemaDoc [attrField "a" "string" [("required", JSValue.null)]]

/-- The normalized output the validator produces for `c1Doc`. -/
def c1Out : SchemaData :=
  SchemaData.mk (JSValue.str "1") (JSValue.str "E") (JSValue.str "d")
    (PrimaryKeyData.mk "pk" JSValue.undef)
    [ValidatedField.mk "a" JSValue.undef "string" (JSValue.bool false)
      JSValue.undef JSValue.undef JSValue.undef JSValue.undef JSValue.undef
      none none]

/-- C2's document family: one string field named `f` whose `nameOverride`
is the candidate string `s`. -/
def overrideDoc (s : String) : JSValue :=
  mkSchemaDoc [attrField "f" "string" [("nameOverride", JSValue.str s)]]

/-- The normalized output for an accepted `overrideDoc s`. -/
def overrideOut (s : String) : SchemaData :=
  SchemaData.mk (JSValue.str "1") (JSValue.str "E") (JSValue.str "d")
    (PrimaryKeyData.mk "pk" JSValue.undef)
    [ValidatedField.mk "f" (JSValue.str s) "string" (JSValue.bool false)
      JSValue.undef JSValue.undef JSValue.undef JSValue.undef JSValue.undef
      none none]

/-- C3's number-range document family: field `age` of type `number` with
`constraints.min = a` and `constraints.max = b`. -/
def numRangeDoc (a b : ℚ) : JSValue :=
  mkSchemaDoc [attrField "age" "number"
    [("constraints", JSValue.obj [("min", JSValue.num a), ("max", JSValue.num b)])]]

/-- The range-inversion message thrown for `numRangeDoc a b` when `a > b`. -/
def minMaxMsg (a b : ℚ) : String :=
  "Field 'age' min (" ++ toString a ++ ") cannot be greater than max (" ++
    toString b ++ ")"

/-- C3's string-length document family: field `nick` of type `string` with
`constraints.minLength = a` and `constraints.maxLength = b`. -/
def strRangeDoc (a b : ℚ) : JSValue :=
  mkSchemaDoc [attrField "nick" "string"
    [("constraints", JSValue.obj [("minLength", JSValue.num a),
      ("maxLength", JSValue.num b)])]]

/-- The range-inversion message thrown for `strRangeDoc a b` when `a > b`. -/
def minMaxLenMsg (a b : ℚ) : String :=
  "Field 'nick' minLength (" ++ toString a ++
    ") cannot be greater than maxLength (" ++ toString b ++ ")"

/-- C4's counterexample document: a `list` field carrying a `minLength`
constraint (`items` present and well-formed, so only the constraint is at
fault). -/
def c4Doc : JSValue :=
  mkSchemaDoc [attrField "x" "list"
    [("items", JSValue.obj [("type", JSValue.str "string")]),
     ("constraints", JSValue.obj [("minLength", JSValue.num 3)])]]

/-- C8's counterexample document: the first field is well-formed and named
`zz`; the second field has no `name` key at all. -/
def c8Doc : JSValue :=
  mkSchemaDoc [attrField "zz" "string" [],
    JSValue.obj [("type", JSValue.str "string")]]

/-- C9's counterexample input: an `entities` array containing `null`. -/
def c9BadDoc : JSValue := JSValue.obj [("entities", JSValue.arr [JSValue.null])]

/-- C10's top-level document family: the given raw values for
`schemaVersion`, `entityName` and `description`, with a valid primary key
and field list. -/
def topDoc (ver ent desc : JSValue) : JSValue :=
  JSValue.obj [("schemaVersion", ver), ("entityName", ent), ("description", desc),
    ("primaryKey", JSValue.obj [("partitionKey", JSValue.str "pk")]),
    ("fields", JSValue.arr [attrField "a" "string" []])]

/-- C10's primary-key document family: a valid header around the given
`primaryKey` value. -/
def pkDoc (pk : JSValue) : JSValue :=
  JSValue.obj [("schemaVersion", JSValue.str "1"), ("entityName", JSValue.str "E"),
    ("description", JSValue.str "d"), ("primaryKey", pk),
    ("fields", JSValue.arr [attrField "a" "string" []])]
/-- The normalized output for an accepted `numRangeDoc a b`. -/
def numRangeOut (a b : ℚ) : SchemaData :=
  SchemaData.mk (JSValue.str "1") (JSValue.str "E") (JSValue.str "d")
    (PrimaryKeyData.mk "pk" JSValue.undef)
    [ValidatedField.mk "age" JSValue.undef "number" (JSValue.bool false)
      JSValue.undef JSValue.undef JSValue.undef
      (JSValue.obj [("min", JSValue.num a), ("max", JSValue.num b)])
      JSValue.undef none none]

/-- The normalized output for an accepted `strRangeDoc a b`. -/
def strRangeOut (a b : ℚ) : SchemaData :=
  SchemaData.mk (JSValue.str "1") (JSValue.str "E") (JSValue.str "d")
    (PrimaryKeyData.mk "pk" JSValue.undef)
    [ValidatedField.mk "nick" JSValue.undef "string" (JSValue.bool false)
      JSValue.undef JSValue.undef JSValue.undef
      (JSValue.obj [("minLength", JSValue.num a), ("maxLength", JSValue.num b)])
      JSValue.undef none none]

/-- Inversion for a successful `Except` bind. -/
theorem exceptBind_ok {α β : Type} {a : Except String α} {f : α → Except String β}
    {b : β} : a >>= f = Except.ok b ↔ ∃ x, a = Except.ok x ∧ f x = Except.ok b := by
  cases a <;> simp [Bind.bind, Except.bind]

/-- Inversion for a failing `Except` bind. -/
theorem exceptBind_error {α β : Type} {a : Except String α} {f : α → Except String β}
    {m : String} : a >>= f = Except.error m ↔
      a = Except.error m ∨ ∃ x, a = Except.ok x ∧ f x = Except.error m := by
  cases a <;> simp [Bind.bind, Except.bind]

/-- A string occurs in the concatenation that surrounds it. -/
theorem strContains_appendMid (a n b : String) : strContains (a ++ n ++ b) n := by
  simp only [strContains, String.data_append]
  exact ⟨a.data, b.data, by simp⟩

/-- A string occurs at the end of a concatenation. -/
theorem strContains_appendRight (a n : String) : strContains (a ++ n) n := by
  simp only [strContains, String.data_append]
  exact ⟨a.data, [], by simp⟩

/-- Every reserved word is itself a syntactically valid identifier (so the
reserved-keyword branch, not the regex branch, is the one that fires on it). -/
theorem reserved_words_are_identifiers :
    ∀ w ∈ RESERVED_WORDS, isValidIdentifier w = true := by decide

/-- What `validateSchema` does on the C2 document family: everything except
the `nameOverride` check is fixed and valid, so the outcome is exactly the
outcome of `checkNameOverride` on the candidate string. -/
theorem validateSchema_overrideDoc (rx : String → Bool) (s : String) :
    validateSchema rx (overrideDoc s) =
      match checkNameOverride "f" (JSValue.str s) with
      | Except.error e => Except.error e
      | Except.ok _ => Except.ok (overrideOut s) := by
  cases h : checkNameOverride "f" (JSValue.str s) <;>
    simp +decide [validateSchema, validateFields, validateFieldsAux, validateOneField,
      checkFieldName, checkFieldType, checkDupName, checkCollectionAttrs,
      checkEnumShape, checkDefault, checkConstraintsStep, checkItemsStep,
      checkMapStep, mkValidatedField, Except.map,
      validatePrimaryKey, mkSchemaDoc, schemaHeader, overrideDoc, overrideOut, attrField,
      getProp, lookupProp, truthy, h, bind, Except.bind, pure, Except.pure, isUndef,
      nullishOr, isNullish, validateDefaultValue, ALL_FIELD_TYPES,
      SCALAR_TYPES, COLLECTION_TYPES]

/-- C2: `validateSchema` accepts a `nameOverride` exactly when it matches the
identifier regex and is not in the cross-language `RESERVED_WORDS` set; every
reserved word is rejected with the reserved-keyword message. -/
theorem c2_nameOverride_acceptance (rx : String → Bool) (s : String) :
    ((∃ out, validateSchema rx (overrideDoc s) = Except.ok out) ↔
      (isValidIdentifier s = true ∧ s ∉ RESERVED_WORDS)) ∧
    (s ∈ RESERVED_WORDS →
      validateSchema rx (overrideDoc s) =
        Except.error ("Field 'f' nameOverride '" ++ s ++
          "' is a reserved keyword")) := by
  have hEval := validateSchema_overrideDoc rx s
  constructor
  · cases hv : isValidIdentifier s with
    | false =>
        simp [checkNameOverride, hv] at hEval
        rw [hEval]
        simp [hv]
    | true =>
        cases hr : RESERVED_WORDS.contains s with
        | false =>
            simp [checkNameOverride, hv, hr] at hEval
            rw [hEval]
            have hnm : ¬ s ∈ RESERVED_WORDS := by simpa using hr
            simp [hv, hnm]
        | true =>
            simp [checkNameOverride, hv, hr] at hEval
            rw [hEval]
            have hm : s ∈ RESERVED_WORDS := by simpa using hr
            simp [hm]
  · intro hmem
    have hv : isValidIdentifier s = true := reserved_words_are_identifiers s hmem
    simp [checkNameOverride, hv, hmem] at hEval
    simpa using hEval
/-- Substring occurrence extends to the right. -/
theorem strContains_mono_right (a b sub : String) (h : strContains a sub) :
    strContains (a ++ b) sub := by
  simp only [strContains, String.data_append]
  obtain ⟨s, t, hst⟩ := h
  exact ⟨s, t ++ b.data, by rw [← hst]; simp⟩

/-- Substring occurrence extends to the left. -/
theorem strContains_mono_left (a b sub : String) (h : strContains b sub) :
    strContains (a ++ b) sub := by
  simp only [strContains, String.data_append]
  obtain ⟨s, t, hst⟩ := h
  exact ⟨a.data ++ s, t, by rw [← hst]; simp⟩

/-- What `validateSchema` does on the C3 number-range family: every check
except `min > max` passes, so the outcome is the ordering comparison. -/
theorem validateSchema_numRangeDoc (rx : String → Bool) (a b : ℚ) :
    validateSchema rx (numRangeDoc a b) =
      if a > b then Except.error (minMaxMsg a b)
      else Except.ok (numRangeOut a b) := by
  by_cases hab : a > b <;>
    simp +decide [validateSchema, validateFields, validateFieldsAux, validateOneField,
      checkFieldName, checkFieldType, checkDupName, checkCollectionAttrs,
      checkEnumShape, checkDefault, checkConstraintsStep, checkItemsStep,
      checkMapStep, mkValidatedField, Except.map,
      validateFieldConstraints, checkMinLength, checkMaxLength, checkLenOrder,
      checkPattern, checkMin, checkMax, checkNumOrder, validatePrimaryKey, numRangeDoc, numRangeOut, minMaxMsg,
      mkSchemaDoc, schemaHeader, attrField, checkNameOverride, getProp, lookupProp,
      truthy, bind, Except.bind, pure, Except.pure, isUndef, nullishOr, isNullish,
      validateDefaultValue, ALL_FIELD_TYPES, SCALAR_TYPES, COLLECTION_TYPES, hab]

/-- What `validateSchema` does on the C3 string-length family with
non-negative integer bounds. -/
theorem validateSchema_strRangeDoc (rx : String → Bool) (na nb : ℕ) :
    validateSchema rx (strRangeDoc (na : ℚ) (nb : ℚ)) =
      if (na : ℚ) > (nb : ℚ) then Except.error (minMaxLenMsg (na : ℚ) (nb : ℚ))
      else Except.ok (strRangeOut (na : ℚ) (nb : ℚ)) := by
  have hden_a : ((na : ℚ)).den = 1 := Rat.den_natCast na
  have hden_b : ((nb : ℚ)).den = 1 := Rat.den_natCast nb
  have hnn_a : ¬ ((na : ℚ) < 0) := not_lt.mpr (Nat.cast_nonneg na)
  have hnn_b : ¬ ((nb : ℚ) < 0) := not_lt.mpr (Nat.cast_nonneg nb)
  by_cases hab : (na : ℚ) > (nb : ℚ) <;>
    simp +decide [validateSchema, validateFields, validateFieldsAux, validateOneField,
      checkFieldName, checkFieldType, checkDupName, checkCollectionAttrs,
      checkEnumShape, checkDefault, checkConstraintsStep, checkItemsStep,
      checkMapStep, mkValidatedField, Except.map,
      validateFieldConstraints, checkMinLength, checkMaxLength, checkLenOrder,
      checkPattern, checkMin, checkMax, checkNumOrder, validatePrimaryKey, strRangeDoc, strRangeOut, minMaxLenMsg,
      mkSchemaDoc, schemaHeader, attrField, checkNameOverride, getProp, lookupProp,
      truthy, bind, Except.bind, pure, Except.pure, isUndef, nullishOr, isNullish,
      validateDefaultValue, ALL_FIELD_TYPES, SCALAR_TYPES, COLLECTION_TYPES,
      hab, hden_a, hden_b, hnn_a, hnn_b]

/-- C3: with both bounds present (`min`/`max` as numbers on a number field,
`minLength`/`maxLength` as non-negative integers on a string field),
validation fails exactly when the lower bound exceeds the upper, with a
message naming the lower bound and "cannot be greater than" the upper; on
lower ≤ upper (equality included) validation succeeds. -/
theorem c3_range_ordering (rx : String → Bool) (a b : ℚ) (na nb : ℕ) :
    (validateSchema rx (numRangeDoc a b) = Except.error (minMaxMsg a b) ↔ a > b) ∧
    (a ≤ b → validateSchema rx (numRangeDoc a b) = Except.ok (numRangeOut a b)) ∧
    strContains (minMaxMsg a b) "min" ∧
    strContains (minMaxMsg a b) "cannot be greater than max" ∧
    (validateSchema rx (strRangeDoc (na : ℚ) (nb : ℚ)) =
        Except.error (minMaxLenMsg (na : ℚ) (nb : ℚ)) ↔ (na : ℚ) > (nb : ℚ)) ∧
    ((na : ℚ) ≤ (nb : ℚ) → validateSchema rx (strRangeDoc (na : ℚ) (nb : ℚ)) =
        Except.ok (strRangeOut (na : ℚ) (nb : ℚ))) ∧
    strContains (minMaxLenMsg (na : ℚ) (nb : ℚ)) "minLength" ∧
    strContains (minMaxLenMsg (na : ℚ) (nb : ℚ)) "cannot be greater than maxLength" := by
  have hnum := validateSchema_numRangeDoc rx a b
  have hstr := validateSchema_strRangeDoc rx na nb
  refine ⟨?_, ?_, ?_, ?_, ?_, ?_, ?_, ?_⟩
  · rw [hnum]
    by_cases hab : a > b <;> simp [hab]
  · intro hle
    rw [hnum, if_neg (not_lt.mpr hle)]
  · unfold minMaxMsg
    refine strContains_mono_right _ _ _ ?_
    refine strContains_mono_right _ _ _ ?_
    refine strContains_mono_right _ _ _ ?_
    exact strContains_mono_right _ _ _ (by decide)
  · unfold minMaxMsg
    refine strContains_mono_right _ _ _ ?_
    refine strContains_mono_right _ _ _ ?_
    exact strContains_mono_left _ _ _ (by decide)
  · rw [hstr]
    by_cases hab : (na : ℚ) > (nb : ℚ) <;> simp [hab]
  · intro hle
    rw [hstr, if_neg (not_lt.mpr hle)]
  · unfold minMaxLenMsg
    refine strContains_mono_right _ _ _ ?_
    refine strContains_mono_right _ _ _ ?_
    refine strContains_mono_right _ _ _ ?_
    exact strContains_mono_right _ _ _ (by decide)
  · unfold minMaxLenMsg
    refine strContains_mono_right _ _ _ ?_
    refine strContains_mono_right _ _ _ ?_
    exact strContains_mono_left _ _ _ (by decide)

theorem validateOneField_ok_iff {rx : String → Bool} {seen : List String}
    {f : JSValue} {vf : ValidatedField} :
    validateOneField rx seen f = Except.ok vf ↔
      ∃ n t items nested,
        checkFieldName f = Except.ok n ∧
        checkFieldType n f = Except.ok t ∧
        checkDupName seen n = Except.ok () ∧
        checkNameOverride n (getProp f "nameOverride") = Except.ok () ∧
        checkCollectionAttrs n t f = Except.ok () ∧
        checkEnumShape n f = Except.ok () ∧
        checkDefault n t f = Except.ok () ∧
        checkConstraintsStep rx n t f = Except.ok () ∧
        checkItemsStep n t f = Except.ok items ∧
        checkMapStep n t f = Except.ok nested ∧
        vf = mkValidatedField n t f items nested := by
  simp only [validateOneField, exceptBind_ok, pure, Except.pure, Except.ok.injEq]
  constructor
  · rintro ⟨n, hn, t, ht, ⟨⟩, hdup, ⟨⟩, hov, ⟨⟩, hcoll, ⟨⟩, henum, ⟨⟩, hdef,
      ⟨⟩, hcons, items, hitems, nested, hnested, hvf⟩
    exact ⟨n, t, items, nested, hn, ht, hdup, hov, hcoll, henum, hdef, hcons,
      hitems, hnested, hvf.symm⟩
  · rintro ⟨n, t, items, nested, hn, ht, hdup, hov, hcoll, henum, hdef, hcons,
      hitems, hnested, hvf⟩
    exact ⟨n, hn, t, ht, ⟨⟩, hdup, ⟨⟩, hov, ⟨⟩, hcoll, ⟨⟩, henum, ⟨⟩, hdef,
      ⟨⟩, hcons, items, hitems, nested, hnested, hvf.symm⟩

theorem checkFieldName_ok {f : JSValue} {n : String} :
    checkFieldName f = Except.ok n ↔
      getProp f "name" = JSValue.str n ∧ n ≠ "" := by
  unfold checkFieldName
  cases hg : getProp f "name" <;> simp_all
  rename_i s
  by_cases hs : s = ""
  · simp only [hs, if_pos rfl]
    constructor
    · intro h; exact absurd h (by simp)
    · rintro ⟨rfl, hne⟩; exact absurd rfl hne
  · simp only [if_neg hs]
    constructor
    · rintro h; cases h; exact ⟨rfl, hs⟩
    · rintro ⟨rfl, -⟩; rfl

theorem checkFieldType_ok {nm : String} {f : JSValue} {t : String} :
    checkFieldType nm f = Except.ok t ↔
      getProp f "type" = JSValue.str t ∧ t ∈ ALL_FIELD_TYPES := by
  unfold checkFieldType
  cases hg : getProp f "type" <;> simp_all
  rename_i s
  by_cases hs : s ∈ ALL_FIELD_TYPES
  · simp only [hs, if_pos]
    constructor
    · rintro h; cases h; exact ⟨rfl, hs⟩
    · rintro ⟨rfl, -⟩; rfl
  · simp only [hs, if_neg, if_false]
    constructor
    · intro h; exact absurd h (by simp)
    · rintro ⟨rfl, hc⟩; exact absurd hc hs

theorem checkDupName_ok {seen : List String} {n : String} :
    checkDupName seen n = Except.ok () ↔ seen.contains n = false := by
  unfold checkDupName
  by_cases hs : seen.contains n = true
  · rw [if_pos hs]
    constructor
    · intro h; exact absurd h (by simp)
    · intro h; rw [hs] at h; cases h
  · rw [if_neg hs]
    simp at hs
    simp [hs]

theorem validateOneField_attrs {rx : String → Bool} {seen : List String}
    {f : JSValue} {vf : ValidatedField}
    (h : validateOneField rx seen f = Except.ok vf) : fieldNormRel f vf := by
  rw [validateOneField_ok_iff] at h
  obtain ⟨n, t, items, nested, hn, ht, -, -, -, -, -, -, -, -, hvf⟩ := h
  subst hvf
  obtain ⟨hname, -⟩ := checkFieldName_ok.mp hn
  obtain ⟨htype, -⟩ := checkFieldType_ok.mp ht
  exact ⟨rfl, rfl, rfl, rfl, rfl, rfl, rfl, hname, htype⟩

theorem validateFieldsAux_forall₂ {rx : String → Bool} :
    ∀ {fs : List JSValue} {seen : List String} {vfs : List ValidatedField},
      validateFieldsAux rx seen fs = Except.ok vfs →
        List.Forall₂ fieldNormRel fs vfs := by
  intro fs
  induction fs with
  | nil =>
      intro seen vfs h
      simp only [validateFieldsAux] at h
      cases h
      exact List.Forall₂.nil
  | cons f fs ih =>
      intro seen vfs h
      simp only [validateFieldsAux, exceptBind_ok, pure, Except.pure] at h
      obtain ⟨vf, hvf, rest, hrest, hcons⟩ := h
      cases hcons
      exact List.Forall₂.cons (validateOneField_attrs hvf) (ih hrest)

theorem validateFields_forall₂ {rx : String → Bool} {fs : List JSValue}
    {vfs : List ValidatedField} (h : validateFields rx fs = Except.ok vfs) :
    List.Forall₂ fieldNormRel fs vfs :=
  validateFieldsAux_forall₂ h

/-- C1 (amended): on every accepted document the normalized fields correspond
one-to-one with the raw field objects; `required` is the raw value with
`?? false` applied (so a present `null`/`undefined` also becomes `false`),
and every other optional attribute is passed through unchanged, absent ones
staying absent. -/
theorem c1_normalization_passthrough (rx : String → Bool) (doc : JSValue)
    (out : SchemaData) (rawFields : List JSValue)
    (hok : validateSchema rx doc = Except.ok out)
    (hfields : getProp doc "fields" = JSValue.arr rawFields) :
    List.Forall₂ fieldNormRel rawFields out.fields := by
  unfold validateSchema at hok
  rw [hfields] at hok
  simp only [bind, Except.bind, pure, Except.pure] at hok
  repeat' split at hok
  all_goals (try exact Except.noConfusion hok)
  rename_i x2 f fs heq2 x1 pk heq1 x0 vfs heqv
  injection hok with h
  subst h
  cases JSValue.arr.inj heq2
  exact validateFields_forall₂ heqv

/-- Witness for C1 at a concrete document (one field with `required: null`). -/
theorem c1_normalization_passthrough_witness :
    List.Forall₂ fieldNormRel
      [attrField "a" "string" [("required", JSValue.null)]] c1Out.fields :=
  c1_normalization_passthrough rxTrue c1Doc c1Out
    [attrField "a" "string" [("required", JSValue.null)]] rfl rfl

/-- C1's counterexample to the claim as stated: the field's `required` key is
present and holds `null`, yet the normalized `required` is `false`, not the
document's value. -/
theorem c1_required_null_cex :
    validateSchema rxTrue c1Doc = Except.ok c1Out ∧
    getProp (attrField "a" "string" [("required", JSValue.null)]) "required" =
      JSValue.null ∧
    c1Out.fields.map (fun vf => vf.required) = [JSValue.bool false] ∧
    JSValue.bool false ≠ JSValue.null :=
  ⟨rfl, rfl, rfl, fun h => JSValue.noConfusion h⟩

/-- C10: the required top-level values are tested by truthiness, not key
presence: any falsy value (0, "", false, null, undefined) stored under
`schemaVersion`, `entityName` or `description` raises the corresponding
missing-field error; an empty-string `partitionKey` and an empty-string field
`name` are likewise rejected with the missing-style message. -/
theorem c10_truthiness_presence (rx : String → Bool) (v : JSValue)
    (hv : truthy v = false) :
    validateSchema rx (topDoc v (JSValue.str "E") (JSValue.str "d")) =
      Except.error "Schema must include schemaVersion field" ∧
    validateSchema rx (topDoc (JSValue.str "1") v (JSValue.str "d")) =
      Except.error "Schema must include entityName field" ∧
    validateSchema rx (topDoc (JSValue.str "1") (JSValue.str "E") v) =
      Except.error "Schema must include description field" ∧
    validateSchema rx (pkDoc (JSValue.obj [("partitionKey", JSValue.str "")])) =
      Except.error "PrimaryKey must include partitionKey as a string" ∧
    validateSchema rx (mkSchemaDoc [attrField "" "string" []]) =
      Except.error "Field must include name as a string" := by
  have h1 : truthy (JSValue.str "1") = true := rfl
  have hE : truthy (JSValue.str "E") = true := rfl
  have hd : truthy (JSValue.str "d") = true := rfl
  refine ⟨?_, ?_, ?_, rfl, rfl⟩ <;>
    simp [validateSchema, topDoc, getProp, lookupProp, hv, h1, hE, hd,
      bind, Except.bind, pure, Except.pure]

/-- Witness for C10 at `v = 0`. -/
theorem c10_truthiness_presence_witness :
    validateSchema rxTrue (topDoc (JSValue.num 0) (JSValue.str "E") (JSValue.str "d")) =
      Except.error "Schema must include schemaVersion field" :=
  (c10_truthiness_presence rxTrue (JSValue.num 0) (by decide)).1

theorem checkNestedName_ok {parent : String} {nf : JSValue} {n : String} :
    checkNestedName parent nf = Except.ok n ↔
      getProp nf "name" = JSValue.str n ∧ n ≠ "" := by
  unfold checkNestedName
  cases hg : getProp nf "name" <;> simp_all
  rename_i s
  by_cases hs : s = ""
  · simp only [hs, if_pos rfl]
    constructor
    · intro h; exact absurd h (by simp)
    · rintro ⟨rfl, hne⟩; exact absurd rfl hne
  · simp only [if_neg hs]
    constructor
    · rintro h; cases h; exact ⟨rfl, hs⟩
    · rintro ⟨rfl, -⟩; rfl

theorem checkNestedType_ok {parent n : String} {nf : JSValue} {t : String} :
    checkNestedType parent n nf = Except.ok t ↔
      getProp nf "type" = JSValue.str t ∧ t ∈ SCALAR_TYPES := by
  unfold checkNestedType
  cases hg : getProp nf "type" <;> simp_all
  rename_i s
  by_cases hs : s ∈ SCALAR_TYPES
  · simp only [hs, if_pos]
    constructor
    · rintro h; cases h; exact ⟨rfl, hs⟩
    · rintro ⟨rfl, -⟩; rfl
  · simp only [hs, if_neg, if_false]
    constructor
    · intro h; exact absurd h (by simp)
    · rintro ⟨rfl, hc⟩; exact absurd hc hs

theorem checkNestedDup_ok {parent : String} {seen : List String} {n : String} :
    checkNestedDup parent seen n = Except.ok () ↔ seen.contains n = false := by
  unfold checkNestedDup
  by_cases hs : seen.contains n = true
  · rw [if_pos hs]
    constructor
    · intro h; exact absurd h (by simp)
    · intro h; rw [hs] at h; cases h
  · rw [if_neg hs]
    simp at hs
    simp [hs]

theorem validateNestedFieldsAux_inv {parent : String} :
    ∀ {nfs : List JSValue} {seen : List String} {v : List NestedField},
      validateNestedFieldsAux parent seen nfs = Except.ok v →
        (v.map (fun nf => nf.name)).Nodup ∧
        (∀ m ∈ v.map (fun nf => nf.name), seen.contains m = false) ∧
        (∀ e ∈ v, e.type ∈ SCALAR_TYPES) ∧
        v.length = nfs.length := by
  intro nfs
  induction nfs with
  | nil =>
      intro seen v h
      simp only [validateNestedFieldsAux] at h
      cases h
      simp
  | cons nf rest ih =>
      intro seen v h
      simp only [validateNestedFieldsAux, exceptBind_ok, pure, Except.pure] at h
      obtain ⟨n, hn, t, ht, ⟨⟩, hdup, tail, htail, hcons⟩ := h
      cases hcons
      obtain ⟨htype, htmem⟩ := checkNestedType_ok.mp ht
      have hcont := checkNestedDup_ok.mp hdup
      obtain ⟨hnodup, hseen, htypes, hlen⟩ := ih htail
      refine ⟨?_, ?_, ?_, by simpa using hlen⟩
      · refine List.nodup_cons.mpr ⟨?_, hnodup⟩
        intro hmem
        have := hseen _ hmem
        simp [List.contains_cons] at this
      · intro m hm
        rcases List.mem_cons.mp hm with rfl | hm'
        · exact hcont
        · have := hseen _ hm'
          simp [List.contains_cons] at this
          simp [this]
      · intro e he
        rcases List.mem_cons.mp he with rfl | he'
        · exact htmem
        · exact htypes _ he'

theorem validateOneField_notSeen {rx : String → Bool} {seen : List String}
    {f : JSValue} {vf : ValidatedField}
    (h : validateOneField rx seen f = Except.ok vf) :
    seen.contains vf.name = false := by
  rw [validateOneField_ok_iff] at h
  obtain ⟨n, t, items, nested, -, -, hdup, -, -, -, -, -, -, -, hvf⟩ := h
  subst hvf
  exact checkDupName_ok.mp hdup

theorem validateFieldsAux_names_nodup {rx : String → Bool} :
    ∀ {fs : List JSValue} {seen : List String} {vfs : List ValidatedField},
      validateFieldsAux rx seen fs = Except.ok vfs →
        (vfs.map (fun vf => vf.name)).Nodup ∧
        ∀ m ∈ vfs.map (fun vf => vf.name), seen.contains m = false := by
  intro fs
  induction fs with
  | nil =>
      intro seen vfs h
      simp only [validateFieldsAux] at h
      cases h
      simp
  | cons f fs ih =>
      intro seen vfs h
      simp only [validateFieldsAux, exceptBind_ok, pure, Except.pure] at h
      obtain ⟨vf, hvf, rest, hrest, hcons⟩ := h
      cases hcons
      obtain ⟨hnodup, hseen⟩ := ih hrest
      have hvfseen := validateOneField_notSeen hvf
      constructor
      · refine List.nodup_cons.mpr ⟨?_, hnodup⟩
        intro hmem
        have := hseen _ hmem
        simp [List.contains_cons] at this
      · intro m hm
        rcases List.mem_cons.mp hm with rfl | hm'
        · exact hvfseen
        · have := hseen _ hm'
          simp [List.contains_cons] at this
          simp [this]

/-- C6: success of field validation forces pairwise-distinct names, at top
level and inside a nested list; a field with a previously seen name fails at
that point with the duplicate-name error citing it, and a concrete
two-fields-same-name list (top-level or nested) fails that way. -/
theorem c6_duplicate_detection (rx : String → Bool) (p n : String) (hn : n ≠ "") :
    (∀ fs vfs, validateFields rx fs = Except.ok vfs →
      (vfs.map (fun vf => vf.name)).Nodup) ∧
    (∀ nfs v, validateNestedFields p nfs = Except.ok v →
      (v.map (fun nf => nf.name)).Nodup) ∧
    (∀ seen f, getProp f "name" = JSValue.str n →
      getProp f "type" = JSValue.str "string" → seen.contains n = true →
      validateOneField rx seen f = Except.error ("Duplicate field name: " ++ n)) ∧
    (validateFields rx [attrField n "string" [], attrField n "string" []] =
      Except.error ("Duplicate field name: " ++ n)) ∧
    (validateNestedFields p
      [JSValue.obj [("name", JSValue.str n), ("type", JSValue.str "string")],
       JSValue.obj [("name", JSValue.str n), ("type", JSValue.str "string")]] =
      Except.error ("Duplicate nested field name '" ++ n ++ "' in '" ++ p ++ "'")) := by
  refine ⟨?_, ?_, ?_, ?_, ?_⟩
  · intro fs vfs h
    exact (validateFieldsAux_names_nodup h).1
  · intro nfs v h
    exact (validateNestedFieldsAux_inv h).1
  · intro seen f hname htype hseen
    have h1 : checkFieldName f = Except.ok n := checkFieldName_ok.mpr ⟨hname, hn⟩
    have h2 : checkFieldType n f = Except.ok "string" :=
      checkFieldType_ok.mpr ⟨htype, by decide⟩
    have h3 : checkDupName seen n =
        Except.error ("Duplicate field name: " ++ n) := by
      unfold checkDupName
      rw [if_pos hseen]
    simp [validateOneField, h1, h2, h3, bind, Except.bind]
  · simp +decide [validateFields, validateFieldsAux, validateOneField,
      checkFieldName, checkFieldType, checkDupName, checkCollectionAttrs,
      checkEnumShape, checkDefault, checkConstraintsStep, checkItemsStep,
      checkMapStep, mkValidatedField, checkNameOverride, attrField, getProp,
      lookupProp, hn, bind, Except.bind, pure, Except.pure, isUndef, truthy]
  · simp +decide [validateNestedFields, validateNestedFieldsAux,
      checkNestedName, checkNestedType, checkNestedDup, getProp, lookupProp,
      hn, bind, Except.bind, pure, Except.pure]

/-- Witness for C6 at `p = "m"`, `n = "dup"`. -/
theorem c6_duplicate_detection_witness :
    validateFields rxTrue [attrField "dup" "string" [], attrField "dup" "string" []] =
      Except.error ("Duplicate field name: " ++ "dup") :=
  (c6_duplicate_detection rxTrue "m" "dup" (by decide)).2.2.2.1

theorem checkItemsType_ok {p : String} {items : JSValue} {t : String} :
    checkItemsType p items = Except.ok t ↔
      getProp items "type" = JSValue.str t ∧ t ∈ LIST_ITEM_TYPES := by
  unfold checkItemsType
  cases hg : getProp items "type" <;> simp_all
  rename_i s
  by_cases hs : s ∈ LIST_ITEM_TYPES
  · simp only [hs, if_pos]
    constructor
    · rintro h; cases h; exact ⟨rfl, hs⟩
    · rintro ⟨rfl, -⟩; rfl
  · simp only [hs, if_neg, if_false]
    constructor
    · intro h; exact absurd h (by simp)
    · rintro ⟨rfl, hc⟩; exact absurd hc hs

theorem checkItemsMapFields_map_ok {p : String} {items : JSValue}
    {nested : Option (List NestedField)}
    (h : checkItemsMapFields p "map" items = Except.ok nested) :
    ∃ nfs, nested = some nfs ∧ nfs ≠ [] ∧
      (nfs.map (fun e => e.name)).Nodup ∧ ∀ e ∈ nfs, e.type ∈ SCALAR_TYPES := by
  unfold checkItemsMapFields at h
  rw [if_pos rfl] at h
  split at h
  · rename_i x f fs heq
    cases hv : validateNestedFields p (f :: fs) with
    | error e => rw [hv] at h; exact Except.noConfusion h
    | ok v =>
        rw [hv] at h
        simp only [Except.map] at h
        cases h
        obtain ⟨hnodup, -, htypes, hlen⟩ := validateNestedFieldsAux_inv hv
        refine ⟨v, rfl, ?_, hnodup, htypes⟩
        intro hnil
        rw [hnil] at hlen
        exact absurd hlen.symm (by simp)
  · exact Except.noConfusion h

theorem checkMapStep_map_ok {nm : String} {f : JSValue}
    {nested : Option (List NestedField)}
    (h : checkMapStep nm "map" f = Except.ok nested) :
    ∃ nfs, nested = some nfs ∧ nfs ≠ [] ∧
      (nfs.map (fun e => e.name)).Nodup ∧ ∀ e ∈ nfs, e.type ∈ SCALAR_TYPES := by
  unfold checkMapStep at h
  rw [if_pos rfl] at h
  split at h
  · rename_i x g gs heq
    cases hv : validateNestedFields nm (g :: gs) with
    | error e => rw [hv] at h; exact Except.noConfusion h
    | ok v =>
        rw [hv] at h
        simp only [Except.map] at h
        cases h
        obtain ⟨hnodup, -, htypes, hlen⟩ := validateNestedFieldsAux_inv hv
        refine ⟨v, rfl, ?_, hnodup, htypes⟩
        intro hnil
        rw [hnil] at hlen
        exact absurd hlen.symm (by simp)
  · exact Except.noConfusion h

theorem validateListItems_ok_iff {p : String} {items : JSValue} {li : ListItems} :
    validateListItems p items = Except.ok li ↔
      ∃ t nested, checkItemsType p items = Except.ok t ∧
        checkItemsMapFields p t items = Except.ok nested ∧
        li = ListItems.mk t nested := by
  simp only [validateListItems, exceptBind_ok, pure, Except.pure, Except.ok.injEq]
  constructor
  · rintro ⟨t, ht, nested, hnested, hli⟩
    exact ⟨t, nested, ht, hnested, hli.symm⟩
  · rintro ⟨t, nested, ht, hnested, hli⟩
    exact ⟨t, ht, nested, hnested, hli.symm⟩

/-- C7: an accepted `items` descriptor has its type in `LIST_ITEM_TYPES`
(scalars plus `map`; a nested `list` is rejected with the items-type error);
an accepted `map` descriptor carries a non-empty nested field list with
pairwise-distinct names and scalar types only; a `list` field without an
`items` object and a `map` field without a non-empty `fields` array are
rejected; an accepted `map`-typed top-level field carries a non-empty nested
field list of the same shape. -/
theorem c7_list_map_shape (rx : String → Bool) (n p : String) (hn : n ≠ "") :
    (∀ items li, validateListItems p items = Except.ok li →
      li.type ∈ LIST_ITEM_TYPES ∧
      (li.type = "map" → ∃ nfs, li.fields = some nfs ∧ nfs ≠ [] ∧
        (nfs.map (fun e => e.name)).Nodup ∧ ∀ e ∈ nfs, e.type ∈ SCALAR_TYPES)) ∧
    (validateListItems p (JSValue.obj [("type", JSValue.str "list")]) =
      Except.error ("Field '" ++ p ++ "' items must have a valid type: " ++
        String.intercalate ", " LIST_ITEM_TYPES)) ∧
    (String.intercalate ", " LIST_ITEM_TYPES =
      "string, number, boolean, timestamp, map") ∧
    (validateOneField rx [] (attrField n "list" []) =
      Except.error ("Field '" ++ n ++
        "' of type 'list' must include an 'items' definition")) ∧
    (validateOneField rx [] (attrField n "map" []) =
      Except.error ("Field '" ++ n ++
        "' of type 'map' must include a non-empty 'fields' array")) ∧
    (∀ f vf, validateOneField rx [] f = Except.ok vf → vf.type = "map" →
      ∃ nfs, vf.fields = some nfs ∧ nfs ≠ [] ∧
        (nfs.map (fun e => e.name)).Nodup ∧ ∀ e ∈ nfs, e.type ∈ SCALAR_TYPES) := by
  refine ⟨?_, ?_, ?_, ?_, ?_, ?_⟩
  · intro items li h
    rw [validateListItems_ok_iff] at h
    obtain ⟨t, nested, ht, hnested, hli⟩ := h
    subst hli
    refine ⟨(checkItemsType_ok.mp ht).2, ?_⟩
    intro hmap
    subst hmap
    exact checkItemsMapFields_map_ok hnested
  · rfl
  · rfl
  · simp +decide [validateOneField, checkFieldName, checkFieldType, checkDupName,
      checkNameOverride, checkCollectionAttrs, checkEnumShape, checkDefault,
      checkConstraintsStep, checkItemsStep, checkMapStep, mkValidatedField,
      attrField, getProp, lookupProp, hn, bind, Except.bind, pure, Except.pure,
      isUndef, truthy, ALL_FIELD_TYPES, SCALAR_TYPES, COLLECTION_TYPES]
  · simp +decide [validateOneField, checkFieldName, checkFieldType, checkDupName,
      checkNameOverride, checkCollectionAttrs, checkEnumShape, checkDefault,
      checkConstraintsStep, checkItemsStep, checkMapStep, mkValidatedField,
      attrField, getProp, lookupProp, hn, bind, Except.bind, pure, Except.pure,
      isUndef, truthy, ALL_FIELD_TYPES, SCALAR_TYPES, COLLECTION_TYPES]
  · intro f vf h hmap
    rw [validateOneField_ok_iff] at h
    obtain ⟨nm, t, items, nested, -, -, -, -, -, -, -, -, -, hmapstep, hvf⟩ := h
    subst hvf
    simp only [mkValidatedField] at hmap ⊢
    subst hmap
    exact checkMapStep_map_ok hmapstep

/-- Witness for C7: a nested `list` element type is refused. -/
theorem c7_list_map_shape_witness :
    validateListItems "tags" (JSValue.obj [("type", JSValue.str "list")]) =
      Except.error ("Field '" ++ "tags" ++ "' items must have a valid type: " ++
        String.intercalate ", " LIST_ITEM_TYPES) :=
  (c7_list_map_shape rxTrue "x" "tags" (by decide)).2.1

/-- C5: a collection-typed field rejects a present `default` (even `null`), a
truthy `enum` and a `constraints` object, each with the attribute-naming
error; with those absent, `stringSet`/`numberSet` fields pass bare, a `list`
field passes with any `items` accepted by `validateListItems`, and a `map`
field passes with any non-empty `fields` array accepted by
`validateNestedFields`. -/
theorem c5_collection_exclusivity (rx : String → Bool) (ty n : String)
    (hty : ty ∈ COLLECTION_TYPES) (hn : n ≠ "") :
    (∀ v, isUndef v = false →
      validateOneField rx [] (attrField n ty [("default", v)]) =
        Except.error ("Field '" ++ n ++ "' of type '" ++ ty ++
          "' cannot have a default value")) ∧
    (∀ e, truthy e = true →
      validateOneField rx [] (attrField n ty [("enum", e)]) =
        Except.error ("Field '" ++ n ++ "' of type '" ++ ty ++
          "' cannot have enum values")) ∧
    (∀ kvs, validateOneField rx [] (attrField n ty [("constraints", JSValue.obj kvs)]) =
        Except.error ("Field '" ++ n ++ "' of type '" ++ ty ++
          "' cannot have constraints")) ∧
    (ty = "stringSet" ∨ ty = "numberSet" →
      validateOneField rx [] (attrField n ty []) =
        Except.ok (mkValidatedField n ty (attrField n ty []) none none)) ∧
    (∀ ikvs li, validateListItems n (JSValue.obj ikvs) = Except.ok li →
      validateOneField rx [] (attrField n "list" [("items", JSValue.obj ikvs)]) =
        Except.ok (mkValidatedField n "list"
          (attrField n "list" [("items", JSValue.obj ikvs)]) (some li) none)) ∧
    (∀ fv rest nfs, validateNestedFields n (fv :: rest) = Except.ok nfs →
      validateOneField rx [] (attrField n "map" [("fields", JSValue.arr (fv :: rest))]) =
        Except.ok (mkValidatedField n "map"
          (attrField n "map" [("fields", JSValue.arr (fv :: rest))]) none (some nfs))) := by
  have hty' : ty = "list" ∨ ty = "map" ∨ ty = "stringSet" ∨ ty = "numberSet" := by
    simpa [COLLECTION_TYPES] using hty
  refine ⟨?_, ?_, ?_, ?_, ?_, ?_⟩
  · intro v hv
    rcases hty' with rfl | rfl | rfl | rfl <;>
      simp +decide [validateOneField, checkFieldName, checkFieldType, checkDupName,
        checkNameOverride, checkCollectionAttrs, checkEnumShape, checkDefault,
        checkConstraintsStep, checkItemsStep, checkMapStep, mkValidatedField,
        attrField, getProp, lookupProp, hn, hv, bind, Except.bind, pure, Except.pure]
  · intro e he
    rcases hty' with rfl | rfl | rfl | rfl <;>
      simp +decide [validateOneField, checkFieldName, checkFieldType, checkDupName,
        checkNameOverride, checkCollectionAttrs, checkEnumShape, checkDefault,
        checkConstraintsStep, checkItemsStep, checkMapStep, mkValidatedField,
        attrField, getProp, lookupProp, hn, he, bind, Except.bind, pure, Except.pure]
  · intro kvs
    rcases hty' with rfl | rfl | rfl | rfl <;>
      simp +decide [validateOneField, checkFieldName, checkFieldType, checkDupName,
        checkNameOverride, checkCollectionAttrs, checkEnumShape, checkDefault,
        checkConstraintsStep, checkItemsStep, checkMapStep, mkValidatedField,
        attrField, getProp, lookupProp, hn, truthy, bind, Except.bind, pure, Except.pure]
  · rintro (rfl | rfl) <;>
      simp +decide [validateOneField, checkFieldName, checkFieldType, checkDupName,
        checkNameOverride, checkCollectionAttrs, checkEnumShape, checkDefault,
        checkConstraintsStep, checkItemsStep, checkMapStep, mkValidatedField,
        attrField, getProp, lookupProp, hn, bind, Except.bind, pure, Except.pure]
  · intro ikvs li h
    simp +decide [validateOneField, checkFieldName, checkFieldType, checkDupName,
      checkNameOverride, checkCollectionAttrs, checkEnumShape, checkDefault,
      checkConstraintsStep, checkItemsStep, checkMapStep, mkValidatedField,
      attrField, getProp, lookupProp, hn, h, Except.map, bind, Except.bind,
      pure, Except.pure]
  · intro fv rest nfs h
    simp +decide [validateOneField, checkFieldName, checkFieldType, checkDupName,
      checkNameOverride, checkCollectionAttrs, checkEnumShape, checkDefault,
      checkConstraintsStep, checkItemsStep, checkMapStep, mkValidatedField,
      attrField, getProp, lookupProp, hn, h, Except.map, bind, Except.bind,
      pure, Except.pure]

/-- Witness for C5: a `constraints` object on a `stringSet` field is refused. -/
theorem c5_collection_exclusivity_witness :
    validateOneField rxTrue []
      (attrField "x" "stringSet" [("constraints", JSValue.obj [("min", JSValue.num 1)])]) =
      Except.error ("Field '" ++ "x" ++ "' of type '" ++ "stringSet" ++
        "' cannot have constraints") :=
  (c5_collection_exclusivity rxTrue "stringSet" "x" (by decide) (by decide)).2.2.1
    [("min", JSValue.num 1)]

/-- C4 (amended): on scalar non-string fields, a present `minLength`,
`maxLength` or `pattern` constraint fails with the message naming the field,
the constraint and the string type; on scalar non-number fields, `min`/`max`
fail naming the field, the constraint and the number type; a collection-typed
field carrying a constraints object fails earlier with the
cannot-have-constraints message instead. -/
theorem c4_constraint_type_mismatch (rx : String → Bool) (n ty : String)
    (v : JSValue) (hty : ty ∈ SCALAR_TYPES) (hn : n ≠ "")
    (hv : isUndef v = false) :
    (ty ≠ "string" →
      (validateOneField rx []
          (attrField n ty [("constraints", JSValue.obj [("minLength", v)])]) =
        Except.error ("Field '" ++ n ++
          "' has minLength constraint but is not a string type")) ∧
      (validateOneField rx []
          (attrField n ty [("constraints", JSValue.obj [("maxLength", v)])]) =
        Except.error ("Field '" ++ n ++
          "' has maxLength constraint but is not a string type")) ∧
      (validateOneField rx []
          (attrField n ty [("constraints", JSValue.obj [("pattern", v)])]) =
        Except.error ("Field '" ++ n ++
          "' has pattern constraint but is not a string type"))) ∧
    (ty ≠ "number" →
      (validateOneField rx []
          (attrField n ty [("constraints", JSValue.obj [("min", v)])]) =
        Except.error ("Field '" ++ n ++
          "' has min constraint but is not a number type")) ∧
      (validateOneField rx []
          (attrField n ty [("constraints", JSValue.obj [("max", v)])]) =
        Except.error ("Field '" ++ n ++
          "' has max constraint but is not a number type"))) ∧
    strContains ("Field '" ++ n ++
      "' has minLength constraint but is not a string type") n ∧
    strContains ("Field '" ++ n ++
      "' has minLength constraint but is not a string type") "minLength" ∧
    strContains ("Field '" ++ n ++
      "' has minLength constraint but is not a string type") "string" ∧
    strContains ("Field '" ++ n ++
      "' has min constraint but is not a number type") "min" ∧
    strContains ("Field '" ++ n ++
      "' has min constraint but is not a number type") "number" ∧
    (∀ tyc ∈ COLLECTION_TYPES, ∀ kvs,
      validateOneField rx []
          (attrField n tyc [("constraints", JSValue.obj kvs)]) =
        Except.error ("Field '" ++ n ++ "' of type '" ++ tyc ++
          "' cannot have constraints")) := by
  have hty' : ty = "string" ∨ ty = "number" ∨ ty = "boolean" ∨ ty = "timestamp" := by
    simpa [SCALAR_TYPES] using hty
  refine ⟨?_, ?_, ?_, ?_, ?_, ?_, ?_, ?_⟩
  · intro hstr
    rcases hty' with rfl | rfl | rfl | rfl
    · exact absurd rfl hstr
    all_goals refine ⟨?_, ?_, ?_⟩
    all_goals
      simp +decide [validateOneField, checkFieldName, checkFieldType, checkDupName,
        checkNameOverride, checkCollectionAttrs, checkEnumShape, checkDefault,
        checkConstraintsStep, checkItemsStep, checkMapStep, mkValidatedField,
        validateFieldConstraints, checkMinLength, checkMaxLength, checkLenOrder,
      checkPattern, checkMin, checkMax, checkNumOrder, attrField, getProp, lookupProp, hn, hv,
        truthy, bind, Except.bind, pure, Except.pure]
  · intro hnum
    rcases hty' with rfl | rfl | rfl | rfl
    case inr.inl => exact absurd rfl hnum
    all_goals refine ⟨?_, ?_⟩
    all_goals
      simp +decide [validateOneField, checkFieldName, checkFieldType, checkDupName,
        checkNameOverride, checkCollectionAttrs, checkEnumShape, checkDefault,
        checkConstraintsStep, checkItemsStep, checkMapStep, mkValidatedField,
        validateFieldConstraints, checkMinLength, checkMaxLength, checkLenOrder,
      checkPattern, checkMin, checkMax, checkNumOrder, attrField, getProp, lookupProp, hn, hv,
        truthy, bind, Except.bind, pure, Except.pure]
  · exact strContains_mono_right _ _ _ (strContains_appendRight _ _)
  · exact strContains_mono_left _ _ _ (by decide)
  · exact strContains_mono_left _ _ _ (by decide)
  · exact strContains_mono_left _ _ _ (by decide)
  · exact strContains_mono_left _ _ _ (by decide)
  · intro tyc htyc kvs
    have htyc' : tyc = "list" ∨ tyc = "map" ∨ tyc = "stringSet" ∨ tyc = "numberSet" := by
      simpa [COLLECTION_TYPES] using htyc
    rcases htyc' with rfl | rfl | rfl | rfl <;>
      simp +decide [validateOneField, checkFieldName, checkFieldType, checkDupName,
        checkNameOverride, checkCollectionAttrs, checkEnumShape, checkDefault,
        checkConstraintsStep, checkItemsStep, checkMapStep, mkValidatedField,
        attrField, getProp, lookupProp, hn, truthy, bind, Except.bind,
        pure, Except.pure]

/-- Witness for C4: `minLength` on a `number` field draws the string-type
mismatch message. -/
theorem c4_constraint_type_mismatch_witness :
    validateOneField rxTrue []
        (attrField "age" "number"
          [("constraints", JSValue.obj [("minLength", JSValue.num 3)])]) =
      Except.error ("Field '" ++ "age" ++
        "' has minLength constraint but is not a string type") :=
  ((c4_constraint_type_mismatch rxTrue "age" "number" (JSValue.num 3)
    (by decide) (by decide) (by decide)).1 (by decide)).1

/-- C4's counterexample to the claim as stated: a `list` field (type not
`string`) carrying `minLength` fails, but with the collection message, which
names neither the constraint nor the string type. -/
theorem c4_wrong_type_collection_cex :
    validateSchema rxTrue c4Doc =
      Except.error "Field 'x' of type 'list' cannot have constraints" ∧
    ¬ strContains "Field 'x' of type 'list' cannot have constraints" "minLength" ∧
    ¬ strContains "Field 'x' of type 'list' cannot have constraints" "string" :=
  ⟨rfl, by decide, by decide⟩

theorem checkFieldType_error_named {n : String} {f : JSValue} {m : String}
    (h : checkFieldType n f = Except.error m) : strContains m n := by
  unfold checkFieldType at h
  repeat' split at h
  all_goals (try exact Except.noConfusion h)
  all_goals
    (injection h with hm; subst hm; unfold fieldTypeMsg;
     repeat first
       | exact strContains_appendRight _ _
       | apply strContains_mono_right _ _ _)

theorem checkDupName_error_named {seen : List String} {n : String} {m : String}
    (h : checkDupName seen n = Except.error m) : strContains m n := by
  unfold checkDupName at h
  repeat' split at h
  all_goals (try exact Except.noConfusion h)
  all_goals
    (injection h with hm; subst hm;
     repeat first
       | exact strContains_appendRight _ _
       | apply strContains_mono_right _ _ _)

theorem checkNameOverride_error_named {n : String} {v : JSValue} {m : String}
    (h : checkNameOverride n v = Except.error m) : strContains m n := by
  unfold checkNameOverride at h
  repeat' split at h
  all_goals (try exact Except.noConfusion h)
  all_goals
    (injection h with hm; subst hm;
     repeat first
       | exact strContains_appendRight _ _
       | apply strContains_mono_right _ _ _)

theorem checkCollectionAttrs_error_named {n ty : String} {f : JSValue}
    {m : String} (h : checkCollectionAttrs n ty f = Except.error m) :
    strContains m n := by
  unfold checkCollectionAttrs at h
  repeat' split at h
  all_goals (try exact Except.noConfusion h)
  all_goals
    (injection h with hm; subst hm;
     repeat first
       | exact strContains_appendRight _ _
       | apply strContains_mono_right _ _ _)

theorem checkEnumShape_error_named {n : String} {f : JSValue} {m : String}
    (h : checkEnumShape n f = Except.error m) : strContains m n := by
  unfold checkEnumShape at h
  repeat' split at h
  all_goals (try exact Except.noConfusion h)
  all_goals
    (injection h with hm; subst hm;
     repeat first
       | exact strContains_appendRight _ _
       | apply strContains_mono_right _ _ _)

theorem checkDefault_error_named {n ty : String} {f : JSValue} {m : String}
    (h : checkDefault n ty f = Except.error m) : strContains m n := by
  unfold checkDefault at h
  repeat' split at h
  all_goals (try exact Except.noConfusion h)
  all_goals
    (injection h with hm; subst hm;
     repeat first
       | exact strContains_appendRight _ _
       | apply strContains_mono_right _ _ _)

theorem checkMinLength_error_named {n ty : String} {c : JSValue} {m : String}
    (h : checkMinLength n ty c = Except.error m) : strContains m n := by
  unfold checkMinLength at h
  repeat' split at h
  all_goals (try exact Except.noConfusion h)
  all_goals
    (injection h with hm; subst hm;
     repeat first
       | exact strContains_appendRight _ _
       | apply strContains_mono_right _ _ _)

theorem checkMaxLength_error_named {n ty : String} {c : JSValue} {m : String}
    (h : checkMaxLength n ty c = Except.error m) : strContains m n := by
  unfold checkMaxLength at h
  repeat' split at h
  all_goals (try exact Except.noConfusion h)
  all_goals
    (injection h with hm; subst hm;
     repeat first
       | exact strContains_appendRight _ _
       | apply strContains_mono_right _ _ _)

theorem checkLenOrder_error_named {n : String} {c : JSValue} {m : String}
    (h : checkLenOrder n c = Except.error m) : strContains m n := by
  unfold checkLenOrder at h
  repeat' split at h
  all_goals (try exact Except.noConfusion h)
  all_goals
    (injection h with hm; subst hm;
     repeat first
       | exact strContains_appendRight _ _
       | apply strContains_mono_right _ _ _)

theorem checkPattern_error_named {rx : String → Bool} {n ty : String}
    {c : JSValue} {m : String}
    (h : checkPattern rx n ty c = Except.error m) : strContains m n := by
  unfold checkPattern at h
  repeat' split at h
  all_goals (try exact Except.noConfusion h)
  all_goals
    (injection h with hm; subst hm;
     repeat first
       | exact strContains_appendRight _ _
       | apply strContains_mono_right _ _ _)

theorem checkMin_error_named {n ty : String} {c : JSValue} {m : String}
    (h : checkMin n ty c = Except.error m) : strContains m n := by
  unfold checkMin at h
  repeat' split at h
  all_goals (try exact Except.noConfusion h)
  all_goals
    (injection h with hm; subst hm;
     repeat first
       | exact strContains_appendRight _ _
       | apply strContains_mono_right _ _ _)

theorem checkMax_error_named {n ty : String} {c : JSValue} {m : String}
    (h : checkMax n ty c = Except.error m) : strContains m n := by
  unfold checkMax at h
  repeat' split at h
  all_goals (try exact Except.noConfusion h)
  all_goals
    (injection h with hm; subst hm;
     repeat first
       | exact strContains_appendRight _ _
       | apply strContains_mono_right _ _ _)

theorem checkNumOrder_error_named {n : String} {c : JSValue} {m : String}
    (h : checkNumOrder n c = Except.error m) : strContains m n := by
  unfold checkNumOrder at h
  repeat' split at h
  all_goals (try exact Except.noConfusion h)
  all_goals
    (injection h with hm; subst hm;
     repeat first
       | exact strContains_appendRight _ _
       | apply strContains_mono_right _ _ _)

theorem validateFieldConstraints_error_named {rx : String → Bool}
    {n ty : String} {c : JSValue} {m : String}
    (h : validateFieldConstraints rx n ty c = Except.error m) :
    strContains m n := by
  simp only [validateFieldConstraints, exceptBind_error] at h
  rcases h with h | ⟨-, -, h | ⟨-, -, h | ⟨-, -, h | ⟨-, -, h | ⟨-, -, h |
    ⟨-, -, h⟩⟩⟩⟩⟩⟩
  · exact checkMinLength_error_named h
  · exact checkMaxLength_error_named h
  · exact checkLenOrder_error_named h
  · exact checkPattern_error_named h
  · exact checkMin_error_named h
  · exact checkMax_error_named h
  · exact checkNumOrder_error_named h

theorem exceptBind_okLeft {α β : Type} (a : α) (k : α → Except String β) :
    (Except.ok a >>= k) = k a := rfl

theorem exceptBind_errLeft {α β : Type} (e : String) (k : α → Except String β) :
    ((Except.error e : Except String α) >>= k) = Except.error e := rfl

theorem checkConstraintsStep_error_named {rx : String → Bool} {n ty : String}
    {f : JSValue} {m : String}
    (h : checkConstraintsStep rx n ty f = Except.error m) : strContains m n := by
  unfold checkConstraintsStep at h
  split at h
  · exact validateFieldConstraints_error_named h
  · exact Except.noConfusion h

theorem checkNestedName_error_named {p : String} {nf : JSValue} {m : String}
    (h : checkNestedName p nf = Except.error m) : strContains m p := by
  unfold checkNestedName at h
  repeat' split at h
  all_goals (try exact Except.noConfusion h)
  all_goals
    (injection h with hm; subst hm;
     repeat first
       | exact strContains_appendRight _ _
       | apply strContains_mono_right _ _ _)

theorem checkNestedType_error_named {p nm : String} {nf : JSValue} {m : String}
    (h : checkNestedType p nm nf = Except.error m) : strContains m p := by
  unfold checkNestedType at h
  repeat' split at h
  all_goals (try exact Except.noConfusion h)
  all_goals
    (injection h with hm; subst hm;
     repeat first
       | exact strContains_appendRight _ _
       | apply strContains_mono_right _ _ _)

theorem checkNestedDup_error_named {p : String} {seen : List String}
    {nm : String} {m : String}
    (h : checkNestedDup p seen nm = Except.error m) : strContains m p := by
  unfold checkNestedDup at h
  repeat' split at h
  all_goals (try exact Except.noConfusion h)
  all_goals
    (injection h with hm; subst hm;
     repeat first
       | exact strContains_appendRight _ _
       | apply strContains_mono_right _ _ _)

theorem validateNestedFieldsAux_error_named {p : String} :
    ∀ {nfs : List JSValue} {seen : List String} {m : String},
      validateNestedFieldsAux p seen nfs = Except.error m → strContains m p := by
  intro nfs
  induction nfs with
  | nil =>
      intro seen m h
      simp only [validateNestedFieldsAux] at h
      exact Except.noConfusion h
  | cons nf rest ih =>
      intro seen m h
      simp only [validateNestedFieldsAux, exceptBind_error, pure, Except.pure] at h
      rcases h with h | ⟨nm, -, h | ⟨t, -, h | ⟨-, -, h | ⟨tl, -, h⟩⟩⟩⟩
      · exact checkNestedName_error_named h
      · exact checkNestedType_error_named h
      · exact checkNestedDup_error_named h
      · exact ih h
      · exact Except.noConfusion h

theorem checkItemsType_error_named {p : String} {items : JSValue} {m : String}
    (h : checkItemsType p items = Except.error m) : strContains m p := by
  unfold checkItemsType at h
  repeat' split at h
  all_goals (try exact Except.noConfusion h)
  all_goals
    (injection h with hm; subst hm;
     repeat first
       | exact strContains_appendRight _ _
       | apply strContains_mono_right _ _ _)

theorem checkItemsMapFields_error_named {p ty : String} {items : JSValue}
    {m : String} (h : checkItemsMapFields p ty items = Except.error m) :
    strContains m p := by
  unfold checkItemsMapFields at h
  split at h
  · split at h
    · rename_i x f fs heq
      cases hv : validateNestedFields p (f :: fs) with
      | error e =>
          rw [hv] at h
          simp only [Except.map] at h
          injection h with hm
          subst hm
          exact validateNestedFieldsAux_error_named hv
      | ok v =>
          rw [hv] at h
          simp only [Except.map] at h
          exact Except.noConfusion h
    · injection h with hm
      subst hm
      repeat first
        | exact strContains_appendRight _ _
        | apply strContains_mono_right _ _ _
  · exact Except.noConfusion h

theorem validateListItems_error_named {p : String} {items : JSValue} {m : String}
    (h : validateListItems p items = Except.error m) : strContains m p := by
  simp only [validateListItems, exceptBind_error, pure, Except.pure] at h
  rcases h with h | ⟨t, -, h | ⟨nested, -, h⟩⟩
  · exact checkItemsType_error_named h
  · exact checkItemsMapFields_error_named h
  · exact Except.noConfusion h

theorem checkItemsStep_error_named {n ty : String} {f : JSValue} {m : String}
    (h : checkItemsStep n ty f = Except.error m) : strContains m n := by
  unfold checkItemsStep at h
  split at h
  · split at h
    · rename_i kvs heq
      cases hv : validateListItems n (JSValue.obj kvs) with
      | error e =>
          rw [hv] at h
          simp only [Except.map] at h
          injection h with hm
          subst hm
          exact validateListItems_error_named hv
      | ok v =>
          rw [hv] at h
          simp only [Except.map] at h
          exact Except.noConfusion h
    · rename_i xs heq
      cases hv : validateListItems n (JSValue.arr xs) with
      | error e =>
          rw [hv] at h
          simp only [Except.map] at h
          injection h with hm
          subst hm
          exact validateListItems_error_named hv
      | ok v =>
          rw [hv] at h
          simp only [Except.map] at h
          exact Except.noConfusion h
    · injection h with hm
      subst hm
      repeat first
        | exact strContains_appendRight _ _
        | apply strContains_mono_right _ _ _
  · exact Except.noConfusion h

theorem checkMapStep_error_named {n ty : String} {f : JSValue} {m : String}
    (h : checkMapStep n ty f = Except.error m) : strContains m n := by
  unfold checkMapStep at h
  split at h
  · split at h
    · rename_i x g gs heq
      cases hv : validateNestedFields n (g :: gs) with
      | error e =>
          rw [hv] at h
          simp only [Except.map] at h
          injection h with hm
          subst hm
          exact validateNestedFieldsAux_error_named hv
      | ok v =>
          rw [hv] at h
          simp only [Except.map] at h
          exact Except.noConfusion h
    · injection h with hm
      subst hm
      repeat first
        | exact strContains_appendRight _ _
        | apply strContains_mono_right _ _ _
  · exact Except.noConfusion h

theorem validateOneField_error_named {rx : String → Bool} {seen : List String}
    {f : JSValue} {n m : String}
    (hname : getProp f "name" = JSValue.str n) (hne : n ≠ "")
    (h : validateOneField rx seen f = Except.error m) : strContains m n := by
  have hn : checkFieldName f = Except.ok n := checkFieldName_ok.mpr ⟨hname, hne⟩
  simp only [validateOneField, hn, exceptBind_okLeft] at h
  cases ht : checkFieldType n f with
  | error e =>
      rw [ht, exceptBind_errLeft] at h
      injection h with hm; subst hm
      exact checkFieldType_error_named ht
  | ok t =>
  rw [ht, exceptBind_okLeft] at h
  cases hd : checkDupName seen n with
  | error e =>
      rw [hd, exceptBind_errLeft] at h
      injection h with hm; subst hm
      exact checkDupName_error_named hd
  | ok u =>
  rw [hd, exceptBind_okLeft] at h
  cases hov : checkNameOverride n (getProp f "nameOverride") with
  | error e =>
      rw [hov, exceptBind_errLeft] at h
      injection h with hm; subst hm
      exact checkNameOverride_error_named hov
  | ok u =>
  rw [hov, exceptBind_okLeft] at h
  cases hcoll : checkCollectionAttrs n t f with
  | error e =>
      rw [hcoll, exceptBind_errLeft] at h
      injection h with hm; subst hm
      exact checkCollectionAttrs_error_named hcoll
  | ok u =>
  rw [hcoll, exceptBind_okLeft] at h
  cases henum : checkEnumShape n f with
  | error e =>
      rw [henum, exceptBind_errLeft] at h
      injection h with hm; subst hm
      exact checkEnumShape_error_named henum
  | ok u =>
  rw [henum, exceptBind_okLeft] at h
  cases hdef : checkDefault n t f with
  | error e =>
      rw [hdef, exceptBind_errLeft] at h
      injection h with hm; subst hm
      exact checkDefault_error_named hdef
  | ok u =>
  rw [hdef, exceptBind_okLeft] at h
  cases hcons : checkConstraintsStep rx n t f with
  | error e =>
      rw [hcons, exceptBind_errLeft] at h
      injection h with hm; subst hm
      exact checkConstraintsStep_error_named hcons
  | ok u =>
  rw [hcons, exceptBind_okLeft] at h
  cases hitems : checkItemsStep n t f with
  | error e =>
      rw [hitems, exceptBind_errLeft] at h
      injection h with hm; subst hm
      exact checkItemsStep_error_named hitems
  | ok items =>
  rw [hitems, exceptBind_okLeft] at h
  cases hmap : checkMapStep n t f with
  | error e =>
      rw [hmap, exceptBind_errLeft] at h
      injection h with hm; subst hm
      exact checkMapStep_error_named hmap
  | ok nested =>
  rw [hmap, exceptBind_okLeft] at h
  exact Except.noConfusion h

/-- C8 (amended): every failure raised while validating a field whose `name`
is present as a non-empty string carries that name in its message, and every
failure raised by nested-field validation carries the parent field's name;
however, a field whose `name` is absent or invalid fails with the generic
message `Field must include name as a string`, which identifies no field. -/
theorem c8_error_names_field :
    (∀ (rx : String → Bool) (seen : List String) (f : JSValue) (n m : String),
      getProp f "name" = JSValue.str n → n ≠ "" →
      validateOneField rx seen f = Except.error m → strContains m n) ∧
    (∀ (parent : String) (nfs : List JSValue) (m : String),
      validateNestedFields parent nfs = Except.error m → strContains m parent) := by
  constructor
  · intro rx seen f n m hname hne h
    exact validateOneField_error_named hname hne h
  · intro parent nfs m h
    exact validateNestedFieldsAux_error_named h

/-- C8's counterexample to the claim as stated: `c8Doc`'s second field has no
`name` key; validation fails with the generic message, which contains the
name of no field in the document (its only field name, `zz`, does not occur),
so the offending field is not identified by name. -/
theorem c8_nameless_field_cex :
    validateSchema rxTrue c8Doc =
      Except.error "Field must include name as a string" ∧
    ¬ strContains "Field must include name as a string" "zz" :=
  ⟨rfl, by decide⟩

theorem fieldCountStep_ok {e : JSValue} (he : isNullish e = false) (s : ℚ) :
    ∃ r, fieldCountStep s e = Except.ok r := by
  cases e <;> simp_all [fieldCountStep, propAccess, bind, Except.bind,
    pure, Except.pure, isNullish]

theorem foldlM_fieldCountStep_ok {es : List JSValue}
    (he : ∀ e ∈ es, isNullish e = false) :
    ∀ s : ℚ, ∃ fc, List.foldlM fieldCountStep s es = Except.ok fc := by
  induction es with
  | nil => intro s; exact ⟨s, rfl⟩
  | cons e es ih =>
      intro s
      obtain ⟨r, hr⟩ := fieldCountStep_ok (he e (List.mem_cons_self e es)) s
      obtain ⟨fc, hfc⟩ := ih (fun x hx => he x (List.mem_cons_of_mem e hx)) r
      refine ⟨fc, ?_⟩
      simp only [List.foldlM, hr, exceptBind_okLeft]
      simpa [List.foldlM] using hfc

theorem fieldCountStep_noFields {ekvs : List (String × JSValue)}
    (hf : lookupProp ekvs "fields" = JSValue.undef) (s : ℚ) :
    fieldCountStep s (JSValue.obj ekvs) = Except.ok s := by
  simp [fieldCountStep, propAccess, hf, bind, Except.bind, pure, Except.pure,
    isNullish]

theorem foldlM_fieldCountStep_noFields {es : List JSValue}
    (he : ∀ e ∈ es, ∃ ekvs, e = JSValue.obj ekvs ∧
      lookupProp ekvs "fields" = JSValue.undef) :
    ∀ s : ℚ, List.foldlM fieldCountStep s es = Except.ok s := by
  induction es with
  | nil => intro s; rfl
  | cons e es ih =>
      intro s
      obtain ⟨ekvs, rfl, hf⟩ := he e (List.mem_cons_self e es)
      simp only [List.foldlM, fieldCountStep_noFields hf, exceptBind_okLeft]
      simpa [List.foldlM] using ih (fun x hx => he x (List.mem_cons_of_mem _ hx)) s

/-- C9 (amended): the counting helper tolerates an absent or `null` entity
list (returning zeroed counts) and entities lacking a `fields` array (each
contributing zero), and returns numeric counts for any `entities` array of
non-nullish elements; but it is not total on arbitrary objects — a nullish
element inside `entities` (or a truthy non-array `entities`) raises a
`TypeError` instead of returning zeros. -/
theorem c9_count_tolerance :
    (∀ kvs, lookupProp kvs "entities" = JSValue.undef →
      countEntitiesAndFields (JSValue.obj kvs) = Except.ok (CountResult.mk 0 0)) ∧
    (∀ kvs, lookupProp kvs "entities" = JSValue.null →
      countEntitiesAndFields (JSValue.obj kvs) = Except.ok (CountResult.mk 0 0)) ∧
    (∀ kvs es, lookupProp kvs "entities" = JSValue.arr es →
      (∀ e ∈ es, isNullish e = false) →
      ∃ fc, countEntitiesAndFields (JSValue.obj kvs) =
        Except.ok (CountResult.mk (es.length : ℚ) fc)) ∧
    (∀ kvs es, lookupProp kvs "entities" = JSValue.arr es →
      (∀ e ∈ es, ∃ ekvs, e = JSValue.obj ekvs ∧
        lookupProp ekvs "fields" = JSValue.undef) →
      countEntitiesAndFields (JSValue.obj kvs) =
        Except.ok (CountResult.mk (es.length : ℚ) 0)) := by
  refine ⟨?_, ?_, ?_, ?_⟩
  · intro kvs h
    simp [countEntitiesAndFields, propAccess, h, bind, Except.bind,
      pure, Except.pure, isNullish]
  · intro kvs h
    simp [countEntitiesAndFields, propAccess, h, bind, Except.bind,
      pure, Except.pure, isNullish]
  · intro kvs es h he
    obtain ⟨fc, hfc⟩ := foldlM_fieldCountStep_ok he 0
    refine ⟨fc, ?_⟩
    simp [countEntitiesAndFields, propAccess, h, hfc, jsLength, bind,
      Except.bind, pure, Except.pure, isNullish]
  · intro kvs es h he
    have hfold := foldlM_fieldCountStep_noFields he 0
    simp [countEntitiesAndFields, propAccess, h, hfold, jsLength, bind,
      Except.bind, pure, Except.pure, isNullish]

/-- Witness for C9's amended tolerance at a concrete object with no
`entities` key. -/
theorem c9_count_tolerance_witness :
    countEntitiesAndFields (JSValue.obj [("x", JSValue.num 1)]) =
      Except.ok (CountResult.mk 0 0) :=
  c9_count_tolerance.1 [("x", JSValue.num 1)] rfl

/-- C9's counterexample to the claim as stated: `{entities: [null]}` is an
input object whose single entity lacks a `fields` array, yet the helper
raises a `TypeError` (from `e.fields` on `null`) instead of returning
counts. -/
theorem c9_count_typeerror_cex :
    countEntitiesAndFields c9BadDoc = Except.error "TypeError" ∧
    getProp c9BadDoc "entities" = JSValue.arr [JSValue.null] :=
  ⟨rfl, rfl⟩
